import Mathlib

/-!
Verification of the broker/region-market specification against the
code of the repository.  The storage-hook utility (`HookedMap`) is embedded
directly from `src/frame/support/src/storage/types/hooked_map.rs`; the
broker engine itself (sale controller, region ledger, renewal tracker,
revenue pool) is only evidenced by its benchmark harness, so it is
modelled from the specification text and checked for self-consistency
against the claims and the benchmark expectations.
-/

/-! ## Association-list storage primitives

The on-chain storage maps are modelled as association lists.  `lookupA`
returns the first binding of a key, `eraseA` removes every binding of a
key, and `setA` overwrites the binding of a key. -/

def lookupA {α β : Type} [DecidableEq α] : List (α × β) → α → Option β
  | [], _ => none
  | (k', v) :: t, k => if k' = k then some v else lookupA t k

def eraseA {α β : Type} [DecidableEq α] : List (α × β) → α → List (α × β)
  | [], _ => []
  | (k', v) :: t, k => if k' = k then eraseA t k else (k', v) :: eraseA t k

def setA {α β : Type} [DecidableEq α] (l : List (α × β)) (k : α) (v : β) :
    List (α × β) :=
  eraseA l k ++ [(k, v)]

theorem lookupA_eraseA_self {α β : Type} [DecidableEq α]
    (l : List (α × β)) (k : α) : lookupA (eraseA l k) k = none := by
  induction l with
  | nil => rfl
  | cons hd t ih =>
    obtain ⟨k', v⟩ := hd
    by_cases h : k' = k
    · simp [eraseA, h, ih]
    · simp [eraseA, lookupA, h, ih]

theorem lookupA_append_right {α β : Type} [DecidableEq α]
    (l l₂ : List (α × β)) (k : α) (h : lookupA l k = none) :
    lookupA (l ++ l₂) k = lookupA l₂ k := by
  induction l with
  | nil => rfl
  | cons hd t ih =>
    obtain ⟨k', v⟩ := hd
    by_cases hk : k' = k
    · simp [lookupA, hk] at h
    · simp only [lookupA, hk, if_false, List.cons_append] at h ⊢
      simp [lookupA, hk, ih h]

theorem lookupA_setA_self {α β : Type} [DecidableEq α]
    (l : List (α × β)) (k : α) (v : β) : lookupA (setA l k v) k = some v := by
  unfold setA
  rw [lookupA_append_right _ _ _ (lookupA_eraseA_self l k)]
  simp [lookupA]

/-! ## Embedding of `HookedMap`
(`src/frame/support/src/storage/types/hooked_map.rs`)

A map state is an association list.  Every operation returns, besides its
functional result, a trace recording — in execution order — the moment
the underlying storage mutation is applied (`.write`) and every hook
invocation (`.hook`).  The closures passed to `mutate`-style operations
are modelled as pure functions `Option V → Option V × R` (the `Query`
type is instantiated at `OptionQuery`, so a query value is `Option V`);
the `mutate`/`try_mutate` of the underlying map write the resulting query back
to storage (`some` inserts, `none` removes), with `try_mutate` writing
only on the `Ok` path. -/

namespace HookedMap

abbrev HMap (K V : Type) : Type := List (K × V)

inductive HookCall (K V : Type) : Type where
  | onInsert (key : K) (value : V)
  | onUpdate (key : K) (oldValue newValue : V)
  | onRemove (key : K) (value : V)
deriving DecidableEq

inductive TraceItem (K V : Type) : Type where
  | write
  | hook (call : HookCall K V)
deriving DecidableEq

/-- Write an optional query value back to storage: `some` inserts,
`none` removes (the `from_query_to_optional_value` round trip of the
underlying map). -/
def writeQuery {K V : Type} [DecidableEq K] (m : HMap K V) (k : K)
    (q : Option V) : HMap K V :=
  match q with
  | some v => setA m k v
  | none => eraseA m k

/-- Embeds `HookedMap::post_mutate_hooks`: classify the hook to fire from the
old/new value pair. -/
def post_mutate_hooks {K V : Type} (k : K) :
    Option V → Option V → List (HookCall K V)
  | some o, some n => [.onUpdate k o n]
  | some o, none => [.onRemove k o]
  | none, some n => [.onInsert k n]
  | none, none => []

/-- Embeds `HookedMap::insert`: fires `on_insert` with the new value, then
performs the underlying insert. -/
def insert {K V : Type} [DecidableEq K] (k : K) (v : V) (m : HMap K V) :
    HMap K V × List (TraceItem K V) :=
  (setA m k v, [.hook (.onInsert k v), .write])

/-- Embeds `HookedMap::remove`: fires `on_remove` with the old value when one
exists, then performs the underlying remove. -/
def remove {K V : Type} [DecidableEq K] (k : K) (m : HMap K V) :
    HMap K V × List (TraceItem K V) :=
  (eraseA m k,
    (match lookupA m k with
      | some old => [TraceItem.hook (.onRemove k old)]
      | none => []) ++ [.write])

/-- Embeds `HookedMap::mutate`: read the old value, apply the closure, write the
result back, re-read the new value and fire `post_mutate_hooks`. -/
def mutate {K V R : Type} [DecidableEq K] (k : K)
    (f : Option V → Option V × R) (m : HMap K V) :
    HMap K V × R × List (TraceItem K V) :=
  let old := lookupA m k
  let q := f old
  let m' := writeQuery m k q.1
  (m', q.2, .write :: (post_mutate_hooks k old (lookupA m' k)).map .hook)

/-- Embeds `HookedMap::try_mutate`: the underlying map writes back only when the
closure returns `Ok`, and the wrapper fires `post_mutate_hooks` only in
that case. -/
def try_mutate {K V R E : Type} [DecidableEq K] (k : K)
    (f : Option V → Option V × Except E R) (m : HMap K V) :
    HMap K V × Except E R × List (TraceItem K V) :=
  let old := lookupA m k
  let q := f old
  match q.2 with
  | .ok r =>
    let m' := writeQuery m k q.1
    (m', .ok r, .write :: (post_mutate_hooks k old (lookupA m' k)).map .hook)
  | .error e => (m, .error e, [])

/-- Embeds `HookedMap::mutate_exists`: identical to `mutate` once the query type
is `Option V`. -/
def mutate_exists {K V R : Type} [DecidableEq K] (k : K)
    (f : Option V → Option V × R) (m : HMap K V) :
    HMap K V × R × List (TraceItem K V) :=
  let old := lookupA m k
  let q := f old
  let m' := writeQuery m k q.1
  (m', q.2, .write :: (post_mutate_hooks k old (lookupA m' k)).map .hook)

/-- Embeds `HookedMap::try_mutate_exists`: as `try_mutate` with an explicit
optional value. -/
def try_mutate_exists {K V R E : Type} [DecidableEq K] (k : K)
    (f : Option V → Option V × Except E R) (m : HMap K V) :
    HMap K V × Except E R × List (TraceItem K V) :=
  let old := lookupA m k
  let q := f old
  match q.2 with
  | .ok r =>
    let m' := writeQuery m k q.1
    (m', .ok r, .write :: (post_mutate_hooks k old (lookupA m' k)).map .hook)
  | .error e => (m, .error e, [])

/-- Embeds `HookedMap::append`: the underlying append extends the stored list
(creating `[item]` when absent), then `post_mutate_hooks` fires. -/
def append {K A : Type} [DecidableEq K] (k : K) (item : A)
    (m : HMap K (List A)) : HMap K (List A) × List (TraceItem K (List A)) :=
  let old := lookupA m k
  let m' := setA m k (old.getD [] ++ [item])
  (m', .write :: (post_mutate_hooks k old (lookupA m' k)).map .hook)

/-- Embeds `HookedMap::take`: the underlying take removes and returns the value,
then `on_remove` fires when a value was present. -/
def take {K V : Type} [DecidableEq K] (k : K) (m : HMap K V) :
    HMap K V × Option V × List (TraceItem K V) :=
  let r := lookupA m k
  (eraseA m k, r,
    .write ::
      (match r with
        | some v => [TraceItem.hook (.onRemove k v)]
        | none => []))

/-- Embeds `HookedMap::swap`: hooks are classified from the two old values and
fired, then the underlying swap is performed. -/
def swap {K V : Type} [DecidableEq K] (k1 k2 : K) (m : HMap K V) :
    HMap K V × List (TraceItem K V) :=
  let v1 := lookupA m k1
  let v2 := lookupA m k2
  let hooks : List (HookCall K V) :=
    match v1, v2 with
    | some a, some b => [.onUpdate k1 a b, .onUpdate k2 b a]
    | some a, none => [.onRemove k1 a, .onInsert k2 a]
    | none, some b => [.onRemove k2 b, .onInsert k1 b]
    | none, none => []
  (writeQuery (writeQuery m k1 v2) k2 v1, hooks.map .hook ++ [.write])

/-- Auxiliary scan: every `.hook` item is preceded by some `.write`. -/
def goHooksAfterWrite {K V : Type} (seenWrite : Bool) :
    List (TraceItem K V) → Bool
  | [] => true
  | .write :: t => goHooksAfterWrite true t
  | .hook _ :: t => seenWrite && goHooksAfterWrite seenWrite t

/-- An execution trace satisfies the "hooks fire after the mutation"
discipline when no hook invocation precedes the storage write. -/
def hooksAfterWrite {K V : Type} (tr : List (TraceItem K V)) : Bool :=
  goHooksAfterWrite false tr

theorem goHooksAfterWrite_true_of_write {K V : Type}
    (l : List (TraceItem K V)) : goHooksAfterWrite true l = true := by
  induction l with
  | nil => rfl
  | cons hd t ih => cases hd <;> simp [goHooksAfterWrite, ih]

theorem hooksAfterWrite_write_cons {K V : Type}
    (l : List (TraceItem K V)) :
    hooksAfterWrite (TraceItem.write :: l) = true := by
  unfold hooksAfterWrite goHooksAfterWrite
  exact goHooksAfterWrite_true_of_write l

end HookedMap

/-! ## Broker engine model

The broker engine itself (the implementation of `pallet-broker`) is not part
of the visible sources — only its benchmark harness
(`src/frame/broker/src/benchmarking.rs`) is.  The definitions below are
therefore modelled from the specification text (§3, §4, §6, §7), with
the benchmark harness fixing the concrete configuration and expected
values.  Balances and prices are rationals; times, cores and timeslices
are naturals. -/

namespace Broker

abbrev AccountId : Type := Nat
abbrev TaskId : Type := Nat
abbrev CoreMask : Type := Nat

/-- Width of the capacity bitspace of one core. -/
def CORE_MASK_BITS : Nat := 80

/-- The complete (identity) core mask: all `CORE_MASK_BITS` bits set. -/
def CoreMask.complete : CoreMask := 2 ^ CORE_MASK_BITS - 1

/-- Mask `a` is a subset of mask `b`. -/
def maskSubset (a b : CoreMask) : Prop := a &&& b = a

instance (a b : CoreMask) : Decidable (maskSubset a b) :=
  inferInstanceAs (Decidable (_ = _))

/-- Modelled from the spec: the tunable `ConfigRecord` of the missing
broker implementation (§3); the benchmark harness `new_config_record`
fixes the concrete values used in scenarios. -/
structure ConfigRecord where
  advance_notice : Nat
  interlude_length : Nat
  leadin_length : Nat
  ideal_bulk_proportion : ℚ
  limit_cores_offered : Option Nat
  region_length : Nat
  renewal_bump : ℚ
  contribution_timeout : Nat
deriving DecidableEq

/-- Modelled from the spec: `SaleInfo`, the state of the currently open
sale cycle (§3), maintained by the missing sale controller. -/
structure SaleInfo where
  sale_start : Nat
  leadin_length : Nat
  start_price : ℚ
  regular_price : ℚ
  region_begin : Nat
  region_end : Nat
  ideal_cores_sold : Nat
  cores_offered : Nat
  cores_sold : Nat
  first_core : Nat
  sellout_price : Option ℚ
deriving DecidableEq

/-- A region identifier: `(begin, core, part)` (§3). -/
structure RegionId where
  begin : Nat
  core : Nat
  part : CoreMask
deriving DecidableEq

/-- A region record: its `end` timeslice and its owner. -/
structure RegionRecord where
  end_ : Nat
  owner : AccountId
deriving DecidableEq

/-- Renewal eligibility key `(core, when)` (§3 `AllowedRenewal`). -/
structure RenewalId where
  core : Nat
  when : Nat
deriving DecidableEq

/-- Renewal record: the price of the prior cycle and the task carried
over. -/
structure RenewalRecord where
  price : ℚ
  task : TaskId
deriving DecidableEq

/-- A pooled contribution: its payer and the last claimed timeslice. -/
structure Contribution where
  payer : AccountId
  lastClaim : Nat
deriving DecidableEq

/-- Error taxonomy of §7. -/
inductive BrokerError : Type where
  | NotConfigured
  | Unavailable
  | Overpriced
  | InsufficientFunds
  | NotOwner
  | InvalidSplit
  | Overlap
  | NotAllowed
  | NotFound
deriving DecidableEq

/-- Notifications of §6 (only the constructors the claims need). -/
inductive Event : Type where
  | saleInitialized (sale_start leadin_length : Nat)
      (start_price regular_price : ℚ)
      (region_begin region_end ideal_cores_sold cores_offered : Nat)
  | purchased (who : AccountId) (region_id : RegionId) (price : ℚ)
      (duration : Nat)
  | renewed (who : AccountId) (price : ℚ) (core : Nat) (begin_ end_ : Nat)
  | interlaced (old_region_id : RegionId)
      (new_region_ids : RegionId × RegionId)
  | regionDropped (region_id : RegionId) (duration : Nat)
  | contributionDropped (region_id : RegionId)
deriving DecidableEq

/-- Modelled from the spec: the persisted state of the missing broker
engine (§6 "Persisted layout"), as explicit state threaded through each
operation (§9 design note). -/
structure BrokerState where
  now : Nat
  config : Option ConfigRecord
  sale : Option SaleInfo
  regions : List (RegionId × RegionRecord)
  balances : List (AccountId × ℚ)
  renewals : List (RenewalId × RenewalRecord)
  workplan : List ((Nat × Nat) × TaskId)
  contributions : List (RegionId × Contribution)
  reservedCount : Nat
  leasedCount : Nat
deriving DecidableEq

/-- Free balance of an account (0 when absent). -/
def getBal (s : BrokerState) (a : AccountId) : ℚ :=
  (lookupA s.balances a).getD 0

/-- Modelled from the spec: `start_sales(initial_price, core_count)`
(§4.1) of the missing sale controller.  `sale_start = now +
advance_notice`, `region_begin = sale_start + interlude_length +
leadin_length`, `region_end = region_begin + region_length`,
`regular_price = initial_price`, `start_price = 2 × regular_price`,
`cores_offered = core_count − reserved − leased` floored at zero (the
natural subtraction).  Publishes `SaleInfo` and returns the single
sale-initialized notification. -/
def start_sales (initial_price : ℚ) (core_count : Nat) (s : BrokerState) :
    Except BrokerError (BrokerState × Event) :=
  match s.config with
  | none => .error .NotConfigured
  | some c =>
    match s.sale with
    | some _ => .error .Unavailable
    | none =>
      let sale_start := s.now + c.advance_notice
      let region_begin := sale_start + c.interlude_length + c.leadin_length
      let region_end := region_begin + c.region_length
      let offered := core_count - s.reservedCount - s.leasedCount
      let ideal := (c.ideal_bulk_proportion * (offered : ℚ)).floor.toNat
      let sale : SaleInfo :=
        { sale_start := sale_start
          leadin_length := c.leadin_length
          start_price := 2 * initial_price
          regular_price := initial_price
          region_begin := region_begin
          region_end := region_end
          ideal_cores_sold := ideal
          cores_offered := offered
          cores_sold := 0
          first_core := s.reservedCount + s.leasedCount
          sellout_price := none }
      .ok ({ s with sale := some sale },
        .saleInitialized sale_start c.leadin_length (2 * initial_price)
          initial_price region_begin region_end ideal offered)

/-- Modelled from the spec: the current sale price (§4.1): during the
leadin it descends linearly (a monotone non-increasing curve, §9 open
question fixes the shape as pluggable; linear satisfies the stated
bounds) from `start_price` at elapsed 0 to `regular_price`, after the
leadin it is exactly `regular_price`. -/
def sale_price (sale : SaleInfo) (now : Nat) : ℚ :=
  if now < sale.sale_start + sale.leadin_length then
    sale.start_price -
      (sale.start_price - sale.regular_price) *
        ((now - sale.sale_start : Nat) : ℚ) / (sale.leadin_length : ℚ)
  else sale.regular_price

/-- Modelled from the spec: `purchase(buyer, max_price)` (§4.1) of the
missing sale controller.  Requires an open sale with `now ∈ [sale_start,
region_end)`; fails `Overpriced` when the current price exceeds
`max_price`, `Unavailable` when cores are exhausted, and
`InsufficientFunds` when the ledger cannot debit.  On success it
allocates the next unsold core index, creates a full-mask region over
`[region_begin, region_end)`, debits the buyer, increments `cores_sold`,
records `sellout_price` on the first purchase that exhausts
`cores_offered`, and returns the single purchase notification. -/
def purchase (buyer : AccountId) (max_price : ℚ) (s : BrokerState) :
    Except BrokerError (BrokerState × Event) :=
  match s.sale with
  | none => .error .Unavailable
  | some sale =>
    if s.now < sale.sale_start ∨ sale.region_end ≤ s.now then
      .error .Unavailable
    else
      let p := sale_price sale s.now
      if max_price < p then .error .Overpriced
      else if sale.cores_offered ≤ sale.cores_sold then .error .Unavailable
      else if getBal s buyer < p then .error .InsufficientFunds
      else
        let core := sale.first_core + sale.cores_sold
        let rid : RegionId :=
          { begin := sale.region_begin, core := core,
            part := CoreMask.complete }
        let newSold := sale.cores_sold + 1
        let sellout :=
          if newSold = sale.cores_offered then
            match sale.sellout_price with
            | none => some p
            | some q => some q
          else sale.sellout_price
        let sale' :=
          { sale with cores_sold := newSold, sellout_price := sellout }
        .ok
          ({ s with
              sale := some sale'
              regions :=
                setA s.regions rid ⟨sale.region_end, buyer⟩
              balances := setA s.balances buyer (getBal s buyer - p) },
            .purchased buyer rid p (sale.region_end - sale.region_begin))

/-- Modelled from the spec: `interlace(region, part)` (§4.2) of the
missing region ledger.  Requires ownership and a non-empty strict
subset mask; consumes the region and produces two regions with masks
`part` and `region.part \ part` (the symmetric difference with a subset)
over the same time range and core. -/
def interlace (caller : AccountId) (rid : RegionId) (part : CoreMask)
    (s : BrokerState) : Except BrokerError (BrokerState × Event) :=
  match lookupA s.regions rid with
  | none => .error .NotFound
  | some r =>
    if r.owner ≠ caller then .error .NotOwner
    else if part = 0 ∨ ¬maskSubset part rid.part ∨ part = rid.part then
      .error .InvalidSplit
    else
      let rid1 := { rid with part := part }
      let rid2 := { rid with part := rid.part ^^^ part }
      .ok
        ({ s with
            regions := eraseA s.regions rid ++ [(rid1, r), (rid2, r)] },
          .interlaced rid (rid1, rid2))

/-- Modelled from the spec: `renew(core)` (§4.4) of the missing renewal
tracker.  Looks up the `AllowedRenewal` keyed by the start of the next cycle
(the `region_end` of the open sale); on success creates a region for the
next cycle on the same core, carries the task assignment over into the
workplan, debits `price × (1 + renewal_bump)`, and re-records an
`AllowedRenewal` for the cycle after that (`when = region_end +
region_length`). -/
def renew (caller : AccountId) (core : Nat) (s : BrokerState) :
    Except BrokerError (BrokerState × Event) :=
  match s.config, s.sale with
  | some c, some sale =>
    let nextBegin := sale.region_end
    match lookupA s.renewals ⟨core, nextBegin⟩ with
    | none => .error .NotAllowed
    | some rr =>
      let newPrice := rr.price * (1 + c.renewal_bump)
      if getBal s caller < newPrice then .error .InsufficientFunds
      else
        let rid : RegionId :=
          { begin := nextBegin, core := core, part := CoreMask.complete }
        .ok
          ({ s with
              regions :=
                setA s.regions rid ⟨nextBegin + c.region_length, caller⟩
              workplan := setA s.workplan (nextBegin, core) rr.task
              renewals :=
                setA (eraseA s.renewals ⟨core, nextBegin⟩)
                  ⟨core, nextBegin + c.region_length⟩ ⟨newPrice, rr.task⟩
              balances :=
                setA s.balances caller (getBal s caller - newPrice) },
            .renewed caller newPrice core nextBegin
              (nextBegin + c.region_length))
  | _, _ => .error .NotAllowed

/-- Modelled from the spec: `drop_region(region)` (§4.2) of the missing
region ledger.  Requires `now ≥ region.end`; removes the record and
returns the region-dropped notification; fails `NotFound` when absent
and `Unavailable` when not yet expired. -/
def drop_region (rid : RegionId) (s : BrokerState) :
    Except BrokerError (BrokerState × Event) :=
  match lookupA s.regions rid with
  | none => .error .NotFound
  | some r =>
    if s.now < r.end_ then .error .Unavailable
    else
      .ok ({ s with regions := eraseA s.regions rid },
        .regionDropped rid (r.end_ - rid.begin))

/-- Modelled from the spec: `drop_contribution(region)` (§4.5) of the
missing revenue pool.  Permitted once `now ≥ last_claim_timeslice +
contribution_timeout`; removes the contribution record and returns the
contribution-dropped notification. -/
def drop_contribution (rid : RegionId) (s : BrokerState) :
    Except BrokerError (BrokerState × Event) :=
  match s.config with
  | none => .error .NotConfigured
  | some c =>
    match lookupA s.contributions rid with
    | none => .error .NotFound
    | some contrib =>
      if s.now < contrib.lastClaim + c.contribution_timeout then
        .error .Unavailable
      else
        .ok ({ s with contributions := eraseA s.contributions rid },
          .contributionDropped rid)

/-- The benchmark harness configuration (`new_config_record`):
`advance_notice = 2`, `interlude_length = 1`, `leadin_length = 1`,
`ideal_bulk_proportion = 0` (default), `limit_cores_offered = none`,
`region_length = 3`, `renewal_bump = 10%`, `contribution_timeout = 5`. -/
def benchConfig : ConfigRecord :=
  { advance_notice := 2
    interlude_length := 1
    leadin_length := 1
    ideal_bulk_proportion := 0
    limit_cores_offered := none
    region_length := 3
    renewal_bump := 1 / 10
    contribution_timeout := 5 }

end Broker

namespace Broker

/-! ### Core-mask algebra -/

theorem land_xor_eq_zero_of_subset (a b : Nat) (h : a &&& b = a) :
    a &&& (b ^^^ a) = 0 := by
  apply Nat.eq_of_testBit_eq
  intro i
  have hb : (a.testBit i && b.testBit i) = a.testBit i := by
    have h2 : (a &&& b).testBit i = a.testBit i := by rw [h]
    rwa [Nat.testBit_land] at h2
  simp only [Nat.testBit_land, Nat.testBit_xor, Nat.zero_testBit]
  cases ha : a.testBit i <;> cases hbb : b.testBit i <;> simp_all

theorem lor_xor_eq_of_subset (a b : Nat) (h : a &&& b = a) :
    a ||| (b ^^^ a) = b := by
  apply Nat.eq_of_testBit_eq
  intro i
  have hb : (a.testBit i && b.testBit i) = a.testBit i := by
    have h2 : (a &&& b).testBit i = a.testBit i := by rw [h]
    rwa [Nat.testBit_land] at h2
  simp only [Nat.testBit_lor, Nat.testBit_xor]
  cases ha : a.testBit i <;> cases hbb : b.testBit i <;> simp_all

/-- Claim C2: for every live region `r` and every mask `part` that is
non-empty, a subset of `r.part` and different from `r.part`,
`interlace(r, part)` (called by the owner) consumes `r` and produces
exactly two regions with masks `part` and `r.part \\ part`, each keeping
the time range of `r` and core; the two masks are disjoint and their union
reproduces `r.part` exactly. -/
theorem interlace_mask_partition (caller : AccountId) (rid : RegionId)
    (part : CoreMask) (s : BrokerState) (r : RegionRecord)
    (hfind : lookupA s.regions rid = some r)
    (hown : r.owner = caller)
    (hne : part ≠ 0)
    (hsub : maskSubset part rid.part)
    (hneq : part ≠ rid.part) :
    interlace caller rid part s =
      .ok ({ s with regions := eraseA s.regions rid ++
              [({ rid with part := part }, r),
               ({ rid with part := rid.part ^^^ part }, r)] },
        .interlaced rid
          ({ rid with part := part },
           { rid with part := rid.part ^^^ part })) ∧
    part &&& (rid.part ^^^ part) = 0 ∧
    part ||| (rid.part ^^^ part) = rid.part := by
  refine ⟨?_, land_xor_eq_zero_of_subset part rid.part hsub,
    lor_xor_eq_of_subset part rid.part hsub⟩
  simp only [interlace, hfind]
  rw [if_neg (by simp [hown]), if_neg ?_]
  intro hor
  exact hor.elim hne (fun hor2 => hor2.elim (fun hnot => hnot hsub) hneq)

/-- A one-region state used to evaluate the region-ledger operations on
concrete inputs. -/
def sampleRegionState : BrokerState :=
  { now := 0
    config := none
    sale := none
    regions := [(⟨4, 0, 3⟩, ⟨7, 1⟩)]
    balances := []
    renewals := []
    workplan := []
    contributions := []
    reservedCount := 0
    leasedCount := 0 }

/-- Claim C2, evaluated: interlacing the region `(4, 0, mask 0b11)` at
mask `0b01` yields the two regions with masks `0b01` and `0b10`. -/
theorem interlace_mask_partition_witness :
    interlace 1 ⟨4, 0, 3⟩ 1 sampleRegionState =
      .ok ({ sampleRegionState with
              regions := eraseA sampleRegionState.regions ⟨4, 0, 3⟩ ++
                [(⟨4, 0, 1⟩, ⟨7, 1⟩), (⟨4, 0, 2⟩, ⟨7, 1⟩)] },
        .interlaced ⟨4, 0, 3⟩ (⟨4, 0, 1⟩, ⟨4, 0, 2⟩)) ∧
    (1 : Nat) &&& (3 ^^^ 1) = 0 ∧ (1 : Nat) ||| (3 ^^^ 1) = 3 := by
  simpa using interlace_mask_partition 1 ⟨4, 0, 3⟩ 1 sampleRegionState
    ⟨7, 1⟩ (by decide) (by decide) (by decide) (by decide) (by decide)

end Broker

namespace Broker

/-- Claim C3: with the benchmark configuration (`region_length = 3`,
`interlude_length = 1`, `leadin_length = 1`, `advance_notice = 2`),
`start_sales(initial_price = 10, core_count)` at time `now` publishes a
`SaleInfo` with `sale_start = now + 2`, `leadin_length = 1`,
`start_price = 20`, `regular_price = 10`, `region_begin = now + 4`,
`region_end = now + 7`, and returns exactly one sale-initialized
notification carrying these values. -/
theorem start_sales_benchmark_scenario (s : BrokerState) (n : Nat)
    (hc : s.config = some benchConfig) (hs : s.sale = none) :
    ∃ s' ev, start_sales 10 n s = .ok (s', ev) ∧
      ∃ sl, s'.sale = some sl ∧
        sl.sale_start = s.now + 2 ∧ sl.leadin_length = 1 ∧
        sl.start_price = 20 ∧ sl.regular_price = 10 ∧
        sl.region_begin = s.now + 4 ∧ sl.region_end = s.now + 7 ∧
        ev = .saleInitialized sl.sale_start sl.leadin_length sl.start_price
          sl.regular_price sl.region_begin sl.region_end sl.ideal_cores_sold
          sl.cores_offered := by
  have hok : start_sales 10 n s = .ok (
      { s with sale := some {
          sale_start := s.now + benchConfig.advance_notice
          leadin_length := benchConfig.leadin_length
          start_price := 2 * 10
          regular_price := 10
          region_begin := s.now + benchConfig.advance_notice +
            benchConfig.interlude_length + benchConfig.leadin_length
          region_end := s.now + benchConfig.advance_notice +
            benchConfig.interlude_length + benchConfig.leadin_length +
            benchConfig.region_length
          ideal_cores_sold := (benchConfig.ideal_bulk_proportion *
            ((n - s.reservedCount - s.leasedCount : Nat) : ℚ)).floor.toNat
          cores_offered := n - s.reservedCount - s.leasedCount
          cores_sold := 0
          first_core := s.reservedCount + s.leasedCount
          sellout_price := none } },
      .saleInitialized (s.now + benchConfig.advance_notice)
        benchConfig.leadin_length (2 * 10) 10
        (s.now + benchConfig.advance_notice + benchConfig.interlude_length +
          benchConfig.leadin_length)
        (s.now + benchConfig.advance_notice + benchConfig.interlude_length +
          benchConfig.leadin_length + benchConfig.region_length)
        ((benchConfig.ideal_bulk_proportion *
          ((n - s.reservedCount - s.leasedCount : Nat) : ℚ)).floor.toNat)
        (n - s.reservedCount - s.leasedCount)) := by
    simp only [start_sales, hc, hs]
  refine ⟨_, _, hok, _, rfl, ?_, ?_, by norm_num, rfl, ?_, ?_, rfl⟩ <;>
    simp [benchConfig]

end Broker

namespace Broker

/-- An idle configured state (benchmark configuration, no open sale). -/
def sampleSetupState : BrokerState :=
  { now := 0
    config := some benchConfig
    sale := none
    regions := []
    balances := [(1, 100)]
    renewals := []
    workplan := []
    contributions := []
    reservedCount := 0
    leasedCount := 0 }

/-- Claim C3, evaluated at the idle configured state. -/
theorem start_sales_benchmark_scenario_witness :
    ∃ s' ev, start_sales 10 5 sampleSetupState = .ok (s', ev) ∧
      ∃ sl, s'.sale = some sl ∧
        sl.sale_start = sampleSetupState.now + 2 ∧ sl.leadin_length = 1 ∧
        sl.start_price = 20 ∧ sl.regular_price = 10 ∧
        sl.region_begin = sampleSetupState.now + 4 ∧
        sl.region_end = sampleSetupState.now + 7 ∧
        ev = .saleInitialized sl.sale_start sl.leadin_length sl.start_price
          sl.regular_price sl.region_begin sl.region_end sl.ideal_cores_sold
          sl.cores_offered :=
  start_sales_benchmark_scenario sampleSetupState 5 rfl rfl

/-- Claim C5: whenever `start_sales(p, n)` succeeds, the published
`cores_offered` is `n − reserved_count − leased_count` under the
truncated (floored-at-zero) natural subtraction; in particular it is `0`
whenever `reserved_count + leased_count ≥ n`, never a negative or
wrapped value. -/
theorem start_sales_cores_offered_floor (p : ℚ) (n : Nat)
    (s s' : BrokerState) (ev : Event)
    (h : start_sales p n s = .ok (s', ev)) :
    ∃ sl, s'.sale = some sl ∧
      sl.cores_offered = n - s.reservedCount - s.leasedCount ∧
      (n ≤ s.reservedCount + s.leasedCount → sl.cores_offered = 0) := by
  unfold start_sales at h
  split at h
  · exact absurd h (by simp)
  · split at h
    · exact absurd h (by simp)
    · simp only [Except.ok.injEq, Prod.mk.injEq] at h
      obtain ⟨h1, h2⟩ := h
      subst h1
      refine ⟨_, rfl, rfl, fun hle => ?_⟩
      show n - s.reservedCount - s.leasedCount = 0
      omega

/-- A configured idle state whose reservations and leases exceed the
core count passed to `start_sales`. -/
def sampleCrowdedState : BrokerState :=
  { now := 0
    config := some benchConfig
    sale := none
    regions := []
    balances := []
    renewals := []
    workplan := []
    contributions := []
    reservedCount := 3
    leasedCount := 4 }

/-- Claim C5, evaluated: `start_sales(10, 2)` with 3 reservations and 4
leases publishes `cores_offered = 0`. -/
theorem start_sales_cores_offered_floor_witness :
    ∃ sl,
      ({ sampleCrowdedState with sale := some {
          sale_start := 2
          leadin_length := 1
          start_price := 20
          regular_price := 10
          region_begin := 4
          region_end := 7
          ideal_cores_sold := 0
          cores_offered := 0
          cores_sold := 0
          first_core := 7
          sellout_price := none } } : BrokerState).sale = some sl ∧
      sl.cores_offered = 2 - sampleCrowdedState.reservedCount -
        sampleCrowdedState.leasedCount ∧
      (2 ≤ sampleCrowdedState.reservedCount + sampleCrowdedState.leasedCount →
        sl.cores_offered = 0) :=
  start_sales_cores_offered_floor 10 2 sampleCrowdedState _
    (.saleInitialized 2 1 20 10 4 7 0 0)
    (by simp [start_sales, sampleCrowdedState, benchConfig]; norm_num; decide)

end Broker

namespace Broker

/-- Claim C7: a purchase in an open sale, within the sale window, at a
current price not above `max_price`, with unsold cores and sufficient
funds, succeeds: it allocates the next unsold core index
(`first_core + cores_sold`), creates exactly one full-mask region over
`[region_begin, region_end)` owned by the buyer, debits the buyer by the
current price, increments `cores_sold` by one (recording the sellout
price when this exhausts the offer), and returns the single purchase
notification carrying the new region id and the price paid. -/
theorem purchase_success_effects (b : AccountId) (mp : ℚ) (s : BrokerState)
    (sale : SaleInfo)
    (hs : s.sale = some sale)
    (hwin : sale.sale_start ≤ s.now ∧ s.now < sale.region_end)
    (hp : sale_price sale s.now ≤ mp)
    (hsold : sale.cores_sold < sale.cores_offered)
    (hbal : sale_price sale s.now ≤ getBal s b) :
    purchase b mp s = .ok (
      { s with
          sale := some { sale with
            cores_sold := sale.cores_sold + 1
            sellout_price :=
              if sale.cores_sold + 1 = sale.cores_offered then
                match sale.sellout_price with
                | none => some (sale_price sale s.now)
                | some q => some q
              else sale.sellout_price }
          regions := setA s.regions
            ⟨sale.region_begin, sale.first_core + sale.cores_sold,
              CoreMask.complete⟩
            ⟨sale.region_end, b⟩
          balances := setA s.balances b (getBal s b - sale_price sale s.now) },
      .purchased b
        ⟨sale.region_begin, sale.first_core + sale.cores_sold,
          CoreMask.complete⟩
        (sale_price sale s.now) (sale.region_end - sale.region_begin)) := by
  simp only [purchase, hs]
  rw [if_neg (by push_neg; exact hwin),
    if_neg (not_lt.mpr hp), if_neg (not_le.mpr hsold),
    if_neg (not_lt.mpr hbal)]

/-- The open sale used for concrete purchase evaluations: two cores
offered, none sold, regular price 10, window `[2, 7)`. -/
def samplePurchaseSale : SaleInfo :=
  { sale_start := 2
    leadin_length := 1
    start_price := 20
    regular_price := 10
    region_begin := 4
    region_end := 7
    ideal_cores_sold := 0
    cores_offered := 2
    cores_sold := 0
    first_core := 0
    sellout_price := none }

/-- A state with the sample sale open at `now = 3` (past the leadin) and
a buyer (account 1) holding balance 100. -/
def samplePurchaseState : BrokerState :=
  { now := 3
    config := some benchConfig
    sale := some samplePurchaseSale
    regions := []
    balances := [(1, 100)]
    renewals := []
    workplan := []
    contributions := []
    reservedCount := 0
    leasedCount := 0 }

/-- Claim C7, evaluated: account 1 buys core 0 at the regular price. -/
theorem purchase_success_effects_witness :
    purchase 1 10 samplePurchaseState = .ok (
      { samplePurchaseState with
          sale := some { samplePurchaseSale with
            cores_sold := samplePurchaseSale.cores_sold + 1
            sellout_price :=
              if samplePurchaseSale.cores_sold + 1 =
                  samplePurchaseSale.cores_offered then
                match samplePurchaseSale.sellout_price with
                | none => some (sale_price samplePurchaseSale
                    samplePurchaseState.now)
                | some q => some q
              else samplePurchaseSale.sellout_price }
          regions := setA samplePurchaseState.regions
            ⟨samplePurchaseSale.region_begin,
              samplePurchaseSale.first_core + samplePurchaseSale.cores_sold,
              CoreMask.complete⟩
            ⟨samplePurchaseSale.region_end, 1⟩
          balances := setA samplePurchaseState.balances 1
            (getBal samplePurchaseState 1 -
              sale_price samplePurchaseSale samplePurchaseState.now) },
      .purchased 1
        ⟨samplePurchaseSale.region_begin,
          samplePurchaseSale.first_core + samplePurchaseSale.cores_sold,
          CoreMask.complete⟩
        (sale_price samplePurchaseSale samplePurchaseState.now)
        (samplePurchaseSale.region_end - samplePurchaseSale.region_begin)) :=
  purchase_success_effects 1 10 samplePurchaseState samplePurchaseSale rfl
    (by decide) (by decide) (by decide) (by decide)

/-- The sale-cycle invariant of claim C1: `cores_sold` never exceeds
`cores_offered`, and `sellout_price` is set precisely when the offer has
been exhausted by a purchase. -/
def saleInv (sale : SaleInfo) : Prop :=
  sale.cores_sold ≤ sale.cores_offered ∧
  (sale.sellout_price.isSome = true ↔
    (sale.cores_sold = sale.cores_offered ∧ 0 < sale.cores_offered))

instance (sale : SaleInfo) : Decidable (saleInv sale) := by
  unfold saleInv
  infer_instance

theorem saleInv_sellout_none {sale : SaleInfo} (h : saleInv sale)
    (hlt : sale.cores_sold < sale.cores_offered) :
    sale.sellout_price = none := by
  rcases h with ⟨-, hiff⟩
  cases hsp : sale.sellout_price with
  | none => rfl
  | some q =>
    have h2 := hiff.mp (by simp [hsp])
    omega

/-- One purchase attempt: a failed call leaves the state unchanged. -/
def purchaseStep (req : AccountId × ℚ) (s : BrokerState) : BrokerState :=
  match purchase req.1 req.2 s with
  | .ok (s', _) => s'
  | .error _ => s

/-- A sequence of purchase attempts. -/
def purchaseSeq : List (AccountId × ℚ) → BrokerState → BrokerState
  | [], s => s
  | req :: t, s => purchaseSeq t (purchaseStep req s)

/-- A successful purchase increments `cores_sold` by one and records the
sellout price exactly when the new count reaches `cores_offered` (and
only if it was not already recorded). -/
theorem purchase_ok_sale {b : AccountId} {mp : ℚ} {s s' : BrokerState}
    {ev : Event} (h : purchase b mp s = .ok (s', ev)) :
    ∃ sale, s.sale = some sale ∧
      sale.cores_sold < sale.cores_offered ∧
      s'.sale = some { sale with
        cores_sold := sale.cores_sold + 1
        sellout_price :=
          if sale.cores_sold + 1 = sale.cores_offered then
            match sale.sellout_price with
            | none => some (sale_price sale s.now)
            | some q => some q
          else sale.sellout_price } := by
  unfold purchase at h
  cases hsale : s.sale with
  | none =>
    rw [hsale] at h
    exact absurd h (by simp)
  | some sale =>
    rw [hsale] at h
    simp only at h
    by_cases h1 : s.now < sale.sale_start ∨ sale.region_end ≤ s.now
    · rw [if_pos h1] at h
      exact absurd h (by simp)
    rw [if_neg h1] at h
    by_cases h2 : mp < sale_price sale s.now
    · rw [if_pos h2] at h
      exact absurd h (by simp)
    rw [if_neg h2] at h
    by_cases h3 : sale.cores_offered ≤ sale.cores_sold
    · rw [if_pos h3] at h
      exact absurd h (by simp)
    rw [if_neg h3] at h
    by_cases h4 : getBal s b < sale_price sale s.now
    · rw [if_pos h4] at h
      exact absurd h (by simp)
    rw [if_neg h4] at h
    simp only [Except.ok.injEq, Prod.mk.injEq] at h
    obtain ⟨hs', hev⟩ := h
    subst hs'
    exact ⟨sale, rfl, not_le.mp h3, rfl⟩

/-- Claim C1: within one sale cycle, any sequence of purchase calls
(successful ones mutate the state, failed ones do not) preserves the
sale invariant: `cores_sold ≤ cores_offered`, `sellout_price` is set
exactly when the offer was exhausted (so any successful purchase that
leaves `cores_sold < cores_offered` leaves it unset), and once set it is
never changed, hence it is set at most once — on the purchase that first
makes `cores_sold` equal `cores_offered`. -/
theorem purchase_sellout_once (reqs : List (AccountId × ℚ))
    (s : BrokerState) (sale : SaleInfo)
    (h1 : s.sale = some sale) (h2 : saleInv sale) :
    ∃ sale2, (purchaseSeq reqs s).sale = some sale2 ∧ saleInv sale2 ∧
      (sale2.cores_sold < sale2.cores_offered →
        sale2.sellout_price = none) ∧
      (∀ p, sale.sellout_price = some p →
        sale2.sellout_price = some p) := by
  induction reqs generalizing s sale with
  | nil =>
    exact ⟨sale, h1, h2, fun hlt => saleInv_sellout_none h2 hlt,
      fun p hp => hp⟩
  | cons req t ih =>
    simp only [purchaseSeq]
    cases hres : purchase req.1 req.2 s with
    | error e =>
      have hstep : purchaseStep req s = s := by simp [purchaseStep, hres]
      rw [hstep]
      exact ih s sale h1 h2
    | ok pr =>
      obtain ⟨s', ev⟩ := pr
      have hstep : purchaseStep req s = s' := by simp [purchaseStep, hres]
      rw [hstep]
      obtain ⟨sale0, hs0, hlt, hs'⟩ := purchase_ok_sale hres
      rw [h1] at hs0
      injection hs0 with hs0
      subst hs0
      have hnone : sale.sellout_price = none := saleInv_sellout_none h2 hlt
      have hinv' : saleInv { sale with
          cores_sold := sale.cores_sold + 1
          sellout_price :=
            if sale.cores_sold + 1 = sale.cores_offered then
              match sale.sellout_price with
              | none => some (sale_price sale s.now)
              | some q => some q
            else sale.sellout_price } := by
        constructor
        · simp only
          omega
        · simp only [hnone]
          by_cases hEq : sale.cores_sold + 1 = sale.cores_offered
          · simp only [hEq, if_pos rfl]
            simp
            omega
          · simp only [if_neg hEq]
            simp
            omega
      obtain ⟨sale2, hA, hB, hC, hD⟩ := ih s' _ hs' hinv'
      refine ⟨sale2, hA, hB, hC, fun p hp => ?_⟩
      rw [hnone] at hp
      exact absurd hp (by simp)

/-- Claim C1, evaluated: three purchase attempts against a two-core
sale keep the invariant (the third call fails; the sellout price is set
by the second). -/
theorem purchase_sellout_once_witness :
    ∃ sale2,
      (purchaseSeq [(1, 10), (1, 10), (1, 10)]
        samplePurchaseState).sale = some sale2 ∧ saleInv sale2 ∧
      (sale2.cores_sold < sale2.cores_offered →
        sale2.sellout_price = none) ∧
      (∀ p, samplePurchaseSale.sellout_price = some p →
        sale2.sellout_price = some p) :=
  purchase_sellout_once [(1, 10), (1, 10), (1, 10)] samplePurchaseState
    samplePurchaseSale rfl (by decide)

end Broker

namespace Broker

/-- Claim C4: while the next sale is open, `renew(core)` with an
`AllowedRenewal` entry keyed by `(core, next-cycle-start)` creates a new
region for the next cycle on the same core, carries the same task
assignment over, at price exactly `previous_price × (1 + renewal_bump)`,
and records a new `AllowedRenewal` keyed by `(core, cycle-start after
that)` — with `region_end = 7` and `region_length = 3` the new key has
`when = 10` — keeping the renewal chain alive. -/
theorem renew_effects (caller core : Nat) (s : BrokerState)
    (c : ConfigRecord) (sale : SaleInfo) (rr : RenewalRecord)
    (hc : s.config = some c) (hs : s.sale = some sale)
    (hr : lookupA s.renewals ⟨core, sale.region_end⟩ = some rr)
    (hbal : rr.price * (1 + c.renewal_bump) ≤ getBal s caller) :
    ∃ s', renew caller core s = .ok (s',
        .renewed caller (rr.price * (1 + c.renewal_bump)) core
          sale.region_end (sale.region_end + c.region_length)) ∧
      lookupA s'.regions ⟨sale.region_end, core, CoreMask.complete⟩ =
        some ⟨sale.region_end + c.region_length, caller⟩ ∧
      lookupA s'.workplan (sale.region_end, core) = some rr.task ∧
      lookupA s'.renewals ⟨core, sale.region_end + c.region_length⟩ =
        some ⟨rr.price * (1 + c.renewal_bump), rr.task⟩ ∧
      (sale.region_end = 7 → c.region_length = 3 →
        sale.region_end + c.region_length = 10) := by
  have hok : renew caller core s = .ok (
      { s with
          regions := setA s.regions
            ⟨sale.region_end, core, CoreMask.complete⟩
            ⟨sale.region_end + c.region_length, caller⟩
          workplan := setA s.workplan (sale.region_end, core) rr.task
          renewals := setA (eraseA s.renewals ⟨core, sale.region_end⟩)
            ⟨core, sale.region_end + c.region_length⟩
            ⟨rr.price * (1 + c.renewal_bump), rr.task⟩
          balances := setA s.balances caller
            (getBal s caller - rr.price * (1 + c.renewal_bump)) },
      .renewed caller (rr.price * (1 + c.renewal_bump)) core
        sale.region_end (sale.region_end + c.region_length)) := by
    simp only [renew, hc, hs, hr]
    rw [if_neg (not_lt.mpr hbal)]
  exact ⟨_, hok, lookupA_setA_self _ _ _, lookupA_setA_self _ _ _,
    lookupA_setA_self _ _ _, fun h7 h3 => by rw [h7, h3]⟩

/-- A state matching the renewal benchmark: benchmark configuration, the
sample sale open (its region ends at 7), an `AllowedRenewal` for
`(core 0, when 7)` at price 10 carrying task 1001, and a caller with
balance 100. -/
def sampleRenewState : BrokerState :=
  { now := 6
    config := some benchConfig
    sale := some samplePurchaseSale
    regions := []
    balances := [(1, 100)]
    renewals := [(⟨0, 7⟩, ⟨10, 1001⟩)]
    workplan := []
    contributions := []
    reservedCount := 0
    leasedCount := 0 }

/-- Claim C4, evaluated: renewing core 0 debits `10 × (1 + 10%) = 11`
and records the next `AllowedRenewal` under `when = 10`. -/
theorem renew_effects_witness :
    ∃ s', renew 1 0 sampleRenewState = .ok (s',
        .renewed 1 (10 * (1 + benchConfig.renewal_bump)) 0
          samplePurchaseSale.region_end
          (samplePurchaseSale.region_end + benchConfig.region_length)) ∧
      lookupA s'.regions
        ⟨samplePurchaseSale.region_end, 0, CoreMask.complete⟩ =
        some ⟨samplePurchaseSale.region_end + benchConfig.region_length,
          1⟩ ∧
      lookupA s'.workplan (samplePurchaseSale.region_end, 0) = some 1001 ∧
      lookupA s'.renewals
        ⟨0, samplePurchaseSale.region_end + benchConfig.region_length⟩ =
        some ⟨10 * (1 + benchConfig.renewal_bump), 1001⟩ ∧
      (samplePurchaseSale.region_end = 7 → benchConfig.region_length = 3 →
        samplePurchaseSale.region_end + benchConfig.region_length = 10) :=
  renew_effects 1 0 sampleRenewState benchConfig samplePurchaseSale
    ⟨10, 1001⟩ rfl rfl rfl
    (by norm_num [getBal, lookupA, benchConfig, sampleRenewState])

/-- Claim C8: `drop_region` on a recorded region fails `Unavailable`
while `now < region.end` (a failed call has no state effect); once
`now ≥ region.end` it succeeds exactly once — removing the record and
returning the region-dropped notification — and a second call on the
resulting state fails `NotFound`. -/
theorem drop_region_lifecycle (rid : RegionId) (s : BrokerState)
    (r : RegionRecord) (h : lookupA s.regions rid = some r) :
    (s.now < r.end_ → drop_region rid s = .error .Unavailable) ∧
    (r.end_ ≤ s.now →
      drop_region rid s = .ok ({ s with regions := eraseA s.regions rid },
        .regionDropped rid (r.end_ - rid.begin)) ∧
      drop_region rid { s with regions := eraseA s.regions rid } =
        .error .NotFound) := by
  refine ⟨fun hlt => ?_, fun hge => ⟨?_, ?_⟩⟩
  · simp only [drop_region, h, if_pos hlt]
  · simp only [drop_region, h, if_neg (not_lt.mpr hge)]
  · simp only [drop_region, lookupA_eraseA_self]

/-- The one-region state, advanced past the end of the region. -/
def sampleDropState : BrokerState :=
  { sampleRegionState with now := 10 }

/-- Claim C8, evaluated at the expired sample region. -/
theorem drop_region_lifecycle_witness :
    (sampleDropState.now < (7 : Nat) →
      drop_region ⟨4, 0, 3⟩ sampleDropState = .error .Unavailable) ∧
    ((7 : Nat) ≤ sampleDropState.now →
      drop_region ⟨4, 0, 3⟩ sampleDropState =
        .ok ({ sampleDropState with
            regions := eraseA sampleDropState.regions ⟨4, 0, 3⟩ },
          .regionDropped ⟨4, 0, 3⟩ (7 - 4)) ∧
      drop_region ⟨4, 0, 3⟩
        { sampleDropState with
            regions := eraseA sampleDropState.regions ⟨4, 0, 3⟩ } =
        .error .NotFound) :=
  drop_region_lifecycle ⟨4, 0, 3⟩ sampleDropState ⟨7, 1⟩ rfl

/-- Claim C9: `drop_contribution` on a recorded pool contribution is
permitted exactly once `now ≥ last_claim_timeslice +
contribution_timeout`: before that it fails `Unavailable`; at or after
it, it removes the contribution record (no further payout obligation)
and returns the contribution-dropped notification for that region id,
and a second call on the resulting state fails `NotFound`. -/
theorem drop_contribution_lifecycle (rid : RegionId) (s : BrokerState)
    (c : ConfigRecord) (contrib : Contribution)
    (hc : s.config = some c)
    (h : lookupA s.contributions rid = some contrib) :
    (s.now < contrib.lastClaim + c.contribution_timeout →
      drop_contribution rid s = .error .Unavailable) ∧
    (contrib.lastClaim + c.contribution_timeout ≤ s.now →
      drop_contribution rid s =
        .ok ({ s with contributions := eraseA s.contributions rid },
          .contributionDropped rid) ∧
      drop_contribution rid
        { s with contributions := eraseA s.contributions rid } =
        .error .NotFound) := by
  refine ⟨fun hlt => ?_, fun hge => ⟨?_, ?_⟩⟩
  · simp only [drop_contribution, hc, h, if_pos hlt]
  · simp only [drop_contribution, hc, h, if_neg (not_lt.mpr hge)]
  · simp only [drop_contribution, hc, lookupA_eraseA_self]

/-- A state with the benchmark configuration and one pool contribution
whose last claimed timeslice is 7, with `now = 26` well past the
timeout threshold `7 + 5`. -/
def sampleContribState : BrokerState :=
  { now := 26
    config := some benchConfig
    sale := none
    regions := []
    balances := []
    renewals := []
    workplan := []
    contributions := [(⟨4, 0, 3⟩, ⟨1, 7⟩)]
    reservedCount := 0
    leasedCount := 0 }

/-- Claim C9, evaluated at the timed-out sample contribution. -/
theorem drop_contribution_lifecycle_witness :
    (sampleContribState.now < 7 + benchConfig.contribution_timeout →
      drop_contribution ⟨4, 0, 3⟩ sampleContribState =
        .error .Unavailable) ∧
    (7 + benchConfig.contribution_timeout ≤ sampleContribState.now →
      drop_contribution ⟨4, 0, 3⟩ sampleContribState =
        .ok ({ sampleContribState with
            contributions :=
              eraseA sampleContribState.contributions ⟨4, 0, 3⟩ },
          .contributionDropped ⟨4, 0, 3⟩) ∧
      drop_contribution ⟨4, 0, 3⟩
        { sampleContribState with
            contributions :=
              eraseA sampleContribState.contributions ⟨4, 0, 3⟩ } =
        .error .NotFound) :=
  drop_contribution_lifecycle ⟨4, 0, 3⟩ sampleContribState benchConfig
    ⟨1, 7⟩ rfl rfl

end Broker

namespace HookedMap

/-- Claim C6 counterexample: `HookedMap::insert` fires its hook before
the underlying map mutation is applied, and fires `on_insert` with the
new value even when a value already existed under the key (where the
claim requires `on_update` with the old/new pair, after the
mutation). -/
theorem insert_hook_before_write_cex :
    hooksAfterWrite (HookedMap.insert 0 (1 : Nat) ([] : HMap Nat Nat)).2
      = false ∧
    (HookedMap.insert 0 (7 : Nat)
        ([((0 : Nat), (5 : Nat))] : HMap Nat Nat)).2 =
      [.hook (.onInsert 0 7), .write] := by
  decide

/-- Claim C6 (amended): for `mutate`, `try_mutate` (`Ok` path),
`mutate_exists`, `try_mutate_exists` (`Ok` path), `append` and `take`,
every hook fires synchronously after the underlying map mutation,
receiving the old/new values by value and classified by existence
before and after the mutation (`on_update` for existed-and-exists,
`on_remove` for removal, `on_insert` for creation); for `insert`,
`remove` and `swap` the hooks fire synchronously before the underlying
mutation, with `insert` always firing `on_insert` with the new value —
even when a value previously existed — `remove` firing `on_remove` with
the old value when one existed, and `swap` firing hooks classified from
the two old values. -/
theorem hook_order_and_classification {K V R E A : Type} [DecidableEq K] :
    (∀ (k : K) (v : V) (m : HMap K V),
      HookedMap.insert k v m =
        (setA m k v, [.hook (.onInsert k v), .write])) ∧
    (∀ (k : K) (m : HMap K V) (v : V), lookupA m k = some v →
      HookedMap.remove k m =
        (eraseA m k, [.hook (.onRemove k v), .write])) ∧
    (∀ (k : K) (m : HMap K V), lookupA m k = none →
      HookedMap.remove k m = (eraseA m k, [.write])) ∧
    (∀ (k1 k2 : K) (m : HMap K V), ∃ hs : List (HookCall K V),
      (HookedMap.swap k1 k2 m).2 = hs.map TraceItem.hook ++ [.write]) ∧
    (∀ (k1 k2 : K) (m : HMap K V) (a b : V),
      lookupA m k1 = some a → lookupA m k2 = some b →
      (HookedMap.swap k1 k2 m).2 =
        [.hook (.onUpdate k1 a b), .hook (.onUpdate k2 b a), .write]) ∧
    (∀ (k : K) (f : Option V → Option V × R) (m : HMap K V),
      (HookedMap.mutate k f m).2.2 =
        .write :: (post_mutate_hooks k (lookupA m k)
          (lookupA (HookedMap.mutate k f m).1 k)).map .hook ∧
      hooksAfterWrite (HookedMap.mutate k f m).2.2 = true) ∧
    (∀ (k : K) (f : Option V → Option V × Except E R) (m : HMap K V)
        (r : R),
      (f (lookupA m k)).2 = .ok r →
      (HookedMap.try_mutate k f m).2.2 =
        .write :: (post_mutate_hooks k (lookupA m k)
          (lookupA (HookedMap.try_mutate k f m).1 k)).map .hook) ∧
    (∀ (k : K) (f : Option V → Option V × R) (m : HMap K V),
      (HookedMap.mutate_exists k f m).2.2 =
        .write :: (post_mutate_hooks k (lookupA m k)
          (lookupA (HookedMap.mutate_exists k f m).1 k)).map .hook) ∧
    (∀ (k : K) (f : Option V → Option V × Except E R) (m : HMap K V)
        (r : R),
      (f (lookupA m k)).2 = .ok r →
      (HookedMap.try_mutate_exists k f m).2.2 =
        .write :: (post_mutate_hooks k (lookupA m k)
          (lookupA (HookedMap.try_mutate_exists k f m).1 k)).map .hook) ∧
    (∀ (k : K) (item : A) (m : HMap K (List A)),
      (HookedMap.append k item m).2 =
        .write :: (post_mutate_hooks k (lookupA m k)
          (lookupA (HookedMap.append k item m).1 k)).map .hook) ∧
    (∀ (k : K) (m : HMap K V) (v : V), lookupA m k = some v →
      (HookedMap.take k m).2.2 = [.write, .hook (.onRemove k v)]) ∧
    (∀ (k : K) (m : HMap K V), lookupA m k = none →
      (HookedMap.take k m).2.2 = [.write]) := by
  refine ⟨fun k v m => rfl, ?_, ?_, ?_, ?_, ?_, ?_, ?_, ?_,
    fun k item m => rfl, ?_, ?_⟩
  · intro k m v h
    simp [remove, h]
  · intro k m h
    simp [remove, h]
  · intro k1 k2 m
    unfold swap
    exact ⟨_, rfl⟩
  · intro k1 k2 m a b h1 h2
    simp [swap, h1, h2]
  · intro k f m
    exact ⟨rfl, hooksAfterWrite_write_cons _⟩
  · intro k f m r h
    simp [try_mutate, h]
  · intro k f m
    exact rfl
  · intro k f m r h
    simp [try_mutate_exists, h]
  · intro k m v h
    simp [take, h]
  · intro k m h
    simp [take, h]

/-- Claim C6, evaluated: `try_mutate` overwriting the value under key 0
(old value 3, new value 5) produces the write followed by the single
`on_update` hook carrying the old/new pair. -/
theorem hook_order_and_classification_witness :
    (HookedMap.try_mutate 0
        (fun _ => (some 5, (Except.ok 1 : Except Unit Nat)))
        ([((0 : Nat), (3 : Nat))] : HMap Nat Nat)).2.2 =
      [.write, .hook (.onUpdate 0 3 5)] := by
  have h := (@hook_order_and_classification Nat Nat Nat Unit Nat
    _).2.2.2.2.2.2.1 0
    (fun _ => (some 5, (Except.ok 1 : Except Unit Nat)))
    ([((0 : Nat), (3 : Nat))] : HMap Nat Nat) 1 rfl
  exact h.trans (by decide)

/-- Claim C10: when the closure passed to `try_mutate` or
`try_mutate_exists` returns `Err(e)`, no hook fires (the trace is
empty), the storage is not written, and `Err(e)` is returned to the
caller unchanged; on the `Ok` path the result is returned unchanged and
the hooks fire after the write, classified by comparing the
existence of the value before and after the mutation. -/
theorem try_mutate_error_path {K V R E : Type} [DecidableEq K] :
    (∀ (k : K) (f : Option V → Option V × Except E R) (m : HMap K V)
        (e : E),
      (f (lookupA m k)).2 = .error e →
      HookedMap.try_mutate k f m = (m, .error e, [])) ∧
    (∀ (k : K) (f : Option V → Option V × Except E R) (m : HMap K V)
        (e : E),
      (f (lookupA m k)).2 = .error e →
      HookedMap.try_mutate_exists k f m = (m, .error e, [])) ∧
    (∀ (k : K) (f : Option V → Option V × Except E R) (m : HMap K V)
        (r : R),
      (f (lookupA m k)).2 = .ok r →
      (HookedMap.try_mutate k f m).2.1 = .ok r ∧
      (HookedMap.try_mutate k f m).2.2 =
        .write :: (post_mutate_hooks k (lookupA m k)
          (lookupA (HookedMap.try_mutate k f m).1 k)).map .hook) ∧
    (∀ (k : K) (f : Option V → Option V × Except E R) (m : HMap K V)
        (r : R),
      (f (lookupA m k)).2 = .ok r →
      (HookedMap.try_mutate_exists k f m).2.1 = .ok r ∧
      (HookedMap.try_mutate_exists k f m).2.2 =
        .write :: (post_mutate_hooks k (lookupA m k)
          (lookupA (HookedMap.try_mutate_exists k f m).1 k)).map .hook) := by
  refine ⟨?_, ?_, ?_, ?_⟩
  · intro k f m e h
    simp [try_mutate, h]
  · intro k f m e h
    simp [try_mutate_exists, h]
  · intro k f m r h
    constructor <;> simp [try_mutate, h]
  · intro k f m r h
    constructor <;> simp [try_mutate_exists, h]

/-- Claim C10, evaluated: a closure failing with error 7 leaves the map
untouched, fires no hook and propagates the error unchanged. -/
theorem try_mutate_error_path_witness :
    HookedMap.try_mutate 0
        (fun _ => (some 5, (Except.error 7 : Except Nat Nat)))
        ([((0 : Nat), (3 : Nat))] : HMap Nat Nat) =
      ([((0 : Nat), (3 : Nat))], .error 7, []) :=
  (@try_mutate_error_path Nat Nat Nat Nat _).1 0
    (fun _ => (some 5, (Except.error 7 : Except Nat Nat)))
    ([((0 : Nat), (3 : Nat))] : HMap Nat Nat) 7 rfl

end HookedMap
